import Mathlib

/-!
Verification development for the Suit template engine (Suit.py).
Each definition is a shallow embedding of the corresponding Python
function or class; theorems settle the specification claims.
-/

/-- The recognized tag vocabulary (`SuitTags` in Suit.py). -/
def SuitTags : List String :=
  ["var", "if", "list", "breakpoint", "expression", "condition", "true", "false",
   "iterationvar", "iterationkey"]

/-- A token of template text as seen by `TagCounter.count`: the scanning regex
splits the text into occurrences of openers/closers of the recognized vocabulary
and residual text. The `id` field models the textual `_<number>` suffix that
`count` appends to a tag name (the vocabulary names contain no underscore, so
appending and stripping the suffix is faithfully represented by this field);
tokens coming from source text carry `none`. -/
inductive Token where
  | text (s : String)
  | opener (name : String) (id : Option Nat)
  | closer (name : String) (id : Option Nat)

/-- One pass of `TagCounter.count` over the token list, threading the stack of
assigned ids and the `maxI` counter (`_manageStack` in Suit.py): an opener gets
the next id and pushes it, a closer pops the most recent id; a closer against an
empty stack is the `IndexError` that `count` re-raises as `TemplateParseError`,
modelled by `none`. -/
def countStep : List Token → List Nat → Nat → Option (List Token × List Nat × Nat)
  | [], stack, maxI => some ([], stack, maxI)
  | Token.text s :: rest, stack, maxI =>
    (countStep rest stack maxI).map (fun r => (Token.text s :: r.1, r.2.1, r.2.2))
  | Token.opener n _ :: rest, stack, maxI =>
    (countStep rest (maxI :: stack) (maxI + 1)).map
      (fun r => (Token.opener n (some maxI) :: r.1, r.2.1, r.2.2))
  | Token.closer n _ :: rest, stack, maxI =>
    match stack with
    | [] => none
    | i :: stack' =>
      (countStep rest stack' maxI).map (fun r => (Token.closer n (some i) :: r.1, r.2.1, r.2.2))

/-- Models `TagCounter.count`: enumerate all recognized tags, starting from an empty
stack and counter 0; fails (`TemplateParseError`) on a closer with no open
opener on the stack. -/
def TagCounter.count (ts : List Token) : Option (List Token) :=
  (countStep ts [] 0).map (fun r => r.1)

/-- Strip the numeric suffix from one token (`TagCounter.decount` acts on each
enumerated tag name). -/
def decountToken : Token → Token
  | Token.text s => Token.text s
  | Token.opener n _ => Token.opener n none
  | Token.closer n _ => Token.closer n none

/-- Models `TagCounter.decount`: clean up all enumerations from tags. -/
def TagCounter.decount (ts : List Token) : List Token :=
  ts.map decountToken

/-- Well-nested tag text over the recognized vocabulary: residual text chunks
and properly matched opener/closer pairs of vocabulary tags, arbitrarily
nested, with unsuffixed names (as in authored source text). -/
inductive WellNested : List Token → Prop where
  | nil : WellNested []
  | text (s : String) {rest : List Token} :
      WellNested rest → WellNested (Token.text s :: rest)
  | tag (n : String) {inner rest : List Token} (hn : n ∈ SuitTags) :
      WellNested inner → WellNested rest →
      WellNested (Token.opener n none :: inner ++ Token.closer n none :: rest)

/-- Number of openers in a token list. -/
def opensCount : List Token → Nat
  | [] => 0
  | Token.opener _ _ :: rest => opensCount rest + 1
  | _ :: rest => opensCount rest

/-- Number of closers in a token list. -/
def closesCount : List Token → Nat
  | [] => 0
  | Token.closer _ _ :: rest => closesCount rest + 1
  | _ :: rest => closesCount rest

/-- Association-list lookup with string keys (first match wins), modelling
Python dict lookup for the string-keyed maps used below. -/
def alookup {α : Type} : List (String × α) → String → Option α
  | [], _ => none
  | (k, v) :: rest, key => if k = key then some v else alookup rest key

/-- Boolean prefix test on character lists. -/
def isPre : List Char → List Char → Bool
  | [], _ => true
  | _ :: _, [] => false
  | a :: as, b :: bs => a = b && isPre as bs

/-- Left-to-right, non-overlapping replacement of `pat` by `repl` on a character
list (the semantics of Python `str.replace`), with explicit fuel for
termination; fuel at least the list length never runs out since every step
consumes at least one character. -/
def replaceFuel (pat repl : List Char) : Nat → List Char → List Char
  | _, [] => []
  | 0, l => l
  | fuel + 1, c :: rest =>
    if isPre pat (c :: rest) then repl ++ replaceFuel pat repl fuel ((c :: rest).drop pat.length)
    else c :: replaceFuel pat repl fuel rest

/-- Python `str.replace` on character lists. -/
def rp (pat repl : String) (l : List Char) : List Char :=
  replaceFuel pat.toList repl.toList l.length l

/-- Python `str.strip(".")`: drop leading and trailing dots. -/
def stripDots (l : List Char) : List Char :=
  ((l.dropWhile (fun c => c = '.')).reverse.dropWhile (fun c => c = '.')).reverse

/-- The substitution `re.sub("\.+", ".")`: collapse each run of dots to a
single dot.  The flag records whether the previous character was a dot. -/
def collapseDotsAux : Bool → List Char → List Char
  | _, [] => []
  | prevDot, c :: rest =>
    if c = '.' then
      if prevDot then collapseDotsAux true rest
      else '.' :: collapseDotsAux true rest
    else c :: collapseDotsAux false rest

/-- The substitution `re.sub('\[.+?\]', m => "." + m.group(0))`: insert a dot
before every non-greedy bracket group `[...]` (at least one character between
the brackets, ending at the first closing bracket).  Fuel bounds the scan. -/
def dotBracketsFuel : Nat → List Char → List Char
  | 0, l => l
  | _ + 1, [] => []
  | fuel + 1, c :: rest =>
    if c = '[' then
      match (rest.drop 1).findIdx? (fun d => d = ']') with
      | some j =>
        '.' :: '[' :: (rest.take (j + 1) ++ ']' :: dotBracketsFuel fuel (rest.drop (j + 2)))
      | none => '[' :: dotBracketsFuel fuel rest
    else c :: dotBracketsFuel fuel rest

/-- Insert a dot before every bracket group. -/
def dotBrackets (l : List Char) : List Char :=
  dotBracketsFuel l.length l

/-- Models `Variable._convertVarPath`: convert a variable access from dot notation to
canonical bracket notation, following the source's replacement sequence
verbatim. -/
def Variable.convertVarPath (input : String) : String :=
  let l1 := stripDots input.toList
  let l2 := rp ".[" "[" l1
  let l3 := collapseDotsAux false l2
  let t0 := dotBrackets l3
  let t1 := rp "].[" "][" t0
  let t2 := rp ".[" "\"][" t1
  let t3 := rp "]." "][\"" t2
  let t4 := rp "." "\"][\"" t3
  let tail := if t4.getLast? = some ']' then [] else ['"', ']']
  String.mk ('[' :: '"' :: t4 ++ tail)

/-- The result of `Condition.__init__`: the condition expression, the true
branch and the false branch (bodies kept as raw text). -/
structure ConditionParts where
  condition : Option String
  trueBranch : String
  falseBranch : String

/-- Models `Condition.__init__`: the condition starts from the `condition` attribute
when present; the true branch starts as the whole body and the false branch as
empty; then the loop over the body's top-level tags rebinds the condition from
each `<condition>` child, the true branch from each `<true>` child and the
false branch from each `<false>` child, in order.  `bodyTags` is the
`(name, body)` list produced by `TemplatePart(self.body).getTags()`. -/
def conditionStep (acc : ConditionParts) (t : String × String) : ConditionParts :=
  if t.1 = "condition" then { acc with condition := some t.2 }
  else if t.1 = "true" then { acc with trueBranch := t.2 }
  else if t.1 = "false" then { acc with falseBranch := t.2 }
  else acc

/-- Models `Condition.__init__`: the loop over the body's top-level tags, started from
the attribute-and-defaults accumulator. -/
def Condition.parse (conditionAttr : Option String) (bodyTags : List (String × String))
    (body : String) : ConditionParts :=
  bodyTags.foldl conditionStep ⟨conditionAttr, body, ""⟩

/-- Body text of the last tag with the given name in a `(name, body)` list. -/
def lastBody (name : String) : List (String × String) → Option String
  | [] => none
  | t :: tl =>
    match lastBody name tl with
    | some r => some r
    | none => if t.1 = name then some t.2 else none

/-- A segment of composed template content: residual text, or one whole
breakpoint element (the full `<breakpoint name=...>body</breakpoint>`
occurrence, so replacing a segment replaces the entire element). -/
inductive Seg where
  | txt (s : String)
  | bp (name : String) (body : String)
deriving DecidableEq

/-- Models `Template.getBreakPoints`: the map of named breakpoints found in content,
as `(name, whole element)` pairs. -/
def getBreakPoints : List Seg → List (String × Seg)
  | [] => []
  | Seg.txt _ :: rest => getBreakPoints rest
  | Seg.bp n b :: rest => (n, Seg.bp n b) :: getBreakPoints rest

/-- Python `str.replace` at segment granularity: every segment equal to the
parent's breakpoint element is replaced by the child's element. -/
def replaceAll (p c : Seg) (segs : List Seg) : List Seg :=
  segs.map (fun s => if s = p then c else s)

/-- The loop of `Template.rebase`: for every breakpoint name of the parent, if
the child also declares it, replace the occurrences of the parent's whole
breakpoint element with the child's element. -/
def rebaseFold (childBPs : List (String × Seg)) (acc : List Seg) :
    List (String × Seg) → List Seg
  | [] => acc
  | q :: rest =>
    match alookup childBPs q.1 with
    | some cseg => rebaseFold childBPs (replaceAll q.2 cseg acc) rest
    | none => rebaseFold childBPs acc rest

/-- Models `Template.rebase`: compose a child's breakpoint overrides into the parent's
content (breakpoint element strings are never empty, so the truthiness test
`if bp_current.get(bp_name)` is presence in the child's map). -/
def Template.rebase (parent child : List Seg) : List Seg :=
  rebaseFold (getBreakPoints child) parent (getBreakPoints parent)

/-- A runtime data value: the nested mapping/sequence/scalar structure a
template is rendered against, plus Python `None` and the `SuitNone` sentinel. -/
inductive Value where
  | none
  | str (s : String)
  | int (n : Int)
  | list (xs : List Value)
  | dict (xs : List (String × Value))
  | suitNone

/-- One subscript of a compiled variable path, either a quoted literal key or a
numeric index. -/
inductive Key where
  | str (s : String)
  | int (i : Int)

/-- The exception kinds that `SuitRunTime.var` catches. -/
inductive VarError where
  | nameError
  | keyError
  | indexError
  | typeError

/-- Python list subscription, including negative indices; out of range raises
`IndexError`. -/
def listIndex (xs : List Value) (i : Int) : Except VarError Value :=
  let n : Int := Int.ofNat xs.length
  let j : Int := if i < 0 then i + n else i
  if 0 ≤ j ∧ j < n then
    match xs.get? j.toNat with
    | some v => Except.ok v
    | Option.none => Except.error VarError.indexError
  else Except.error VarError.indexError

/-- Python string subscription: a one-character string, or `IndexError`. -/
def strIndex (s : String) (i : Int) : Except VarError Value :=
  let cs := s.toList
  let n : Int := Int.ofNat cs.length
  let j : Int := if i < 0 then i + n else i
  if 0 ≤ j ∧ j < n then
    match cs.get? j.toNat with
    | some c => Except.ok (Value.str (String.mk [c]))
    | Option.none => Except.error VarError.indexError
  else Except.error VarError.indexError

/-- Python subscription `container[key]` as raised by the generated
`lambda self: self.data[...]...` access chain: a missing dict key raises
`KeyError`, an out-of-range index raises `IndexError`, subscripting a value of
the wrong kind raises `TypeError`; `SuitNone.__getitem__` returns the sentinel
and never raises. -/
def getitem : Value → Key → Except VarError Value
  | Value.dict xs, Key.str k =>
    match alookup xs k with
    | some v => Except.ok v
    | Option.none => Except.error VarError.keyError
  | Value.dict _, Key.int _ => Except.error VarError.keyError
  | Value.list xs, Key.int i => listIndex xs i
  | Value.list _, Key.str _ => Except.error VarError.typeError
  | Value.str s, Key.int i => strIndex s i
  | Value.str _, Key.str _ => Except.error VarError.typeError
  | Value.int _, _ => Except.error VarError.typeError
  | Value.none, _ => Except.error VarError.typeError
  | Value.suitNone, _ => Except.ok Value.suitNone

/-- Evaluation of a whole variable path against the context root: the chain of
subscripts in the generated lambda, stopping at the first raised exception. -/
def evalPath (root : Value) : List Key → Except VarError Value
  | [] => Except.ok root
  | k :: rest =>
    match getitem root k with
    | Except.ok v => evalPath v rest
    | Except.error e => Except.error e

/-- Python `html.escape(s, quote=True)`: the replacement chain from the
standard library, in its order. -/
def escape (s : String) : String :=
  let l := s.toList
  let l := rp "&" "&amp;" l
  let l := rp "<" "&lt;" l
  let l := rp ">" "&gt;" l
  let l := rp "\"" "&quot;" l
  let l := rp "\x27" "&#x27;" l
  String.mk l

/-- The inner `safedefault` of `SuitRunTime.var`: the declared default when one
was given, otherwise `SuitNone()`. -/
def safedefault (default : Option Value) : Value :=
  default.getD Value.suitNone

/-- Models `SuitRunTime.var`: call the variable lambda safely.  The lambda's outcome
is its returned value or the exception it raised; any of the four caught
exception kinds yields `safedefault`, a `None` result yields `safedefault`, a
string result is HTML-escaped with quotes escaped, and any other result passes
through. -/
def SuitRunTime.var (res : Except VarError Value) (default : Option Value) : Value :=
  match res with
  | Except.error _ => safedefault default
  | Except.ok v =>
    match v with
    | Value.none => safedefault default
    | Value.str s => Value.str (escape s)
    | v => v

/-- Models `PythonSyntax.filter`: the source text of one filter application. -/
def PyBackend.filterCall (filterName v : String) (data : Option String) : String :=
  match data with
  | none => "SuitFilters._" ++ filterName ++ "(" ++ v ++ ")"
  | some d => "SuitFilters._" ++ filterName ++ "(" ++ v ++ ", " ++ d ++ ")"

/-- Models `PythonSyntax.var`: emit the safe variable read, thread it through the
filter lambdas in list order, then wrap with `stringify` unless suppressed
(a `None` default is formatted as the text `None`). -/
def PyBackend.var (varName : String) (filters : List (String → String))
    (default : Option String) (withoutStringify : Bool) : String :=
  let res := "SuitRunTime.var(lambda self: self.data" ++ varName ++ ", "
      ++ default.getD "None" ++ ", self)"
  let res := filters.foldl (fun r f => f r) res
  if withoutStringify then res else "SuitRunTime.stringify(" ++ res ++ ")"

/-- Models `JavascriptSyntax.filter`: the fixed named-helper catalogue.  The branches
for length, startswith, in, notin and contains fall through to the final
`stringify` wrap, the others return directly, and an unrecognized name gets
only the `stringify` wrap (a missing data argument is formatted as `None`). -/
def JsBackend.filterCall (filterName v : String) (data : Option String) : String :=
  let d := data.getD "None"
  if filterName = "bool" then "suit.SuitFilters.to_bool(" ++ v ++ ")"
  else if filterName = "int" then "suit.SuitFilters.str2int(" ++ v ++ ")"
  else if filterName = "str" then "suit.SuitFilters.to_str(" ++ v ++ ")"
  else if filterName = "dateformat" then "suit.SuitFilters.dateformat(" ++ v ++ ", " ++ d ++ ")"
  else if filterName = "usebr" then "suit.SuitFilters.usebr(" ++ v ++ ")"
  else if filterName = "plural_form" then "suit.SuitFilters.plural_form(" ++ v ++ ", " ++ d ++ ")"
  else if filterName = "html" then "suit.SuitFilters.html(" ++ v ++ ")"
  else
    let v2 :=
      if filterName = "length" then "suit.SuitFilters.get_length(" ++ v ++ ", " ++ v ++ ")"
      else if filterName = "startswith" then "suit.SuitFilters.startswith(" ++ v ++ ", " ++ d ++ ")"
      else if filterName = "in" then "suit.SuitFilters.inArray(" ++ v ++ ", " ++ d ++ ")"
      else if filterName = "notin" then "!suit.SuitFilters.inArray(" ++ v ++ ", " ++ d ++ ")"
      else if filterName = "contains" then "suit.SuitFilters.contains(" ++ v ++ ", " ++ d ++ ")"
      else v
    "suit.SuitRunTime.stringify(" ++ v2 ++ ")"

/-- Models `JavascriptSyntax.var`: as `PythonSyntax.var`, with the JavaScript
spelling and `null` for a missing default. -/
def JsBackend.var (varName : String) (filters : List (String → String))
    (default : Option String) (withoutStringify : Bool) : String :=
  let res := "suit.SuitRunTime.variable(function()\x7b return data" ++ varName ++ "; \x7d, "
      ++ default.getD "null" ++ ")"
  let res := filters.foldl (fun r f => f r) res
  if withoutStringify then res else "suit.SuitRunTime.stringify(" ++ res ++ ")"

/-- The filter lambda list built by `Syntax.compile_tag` for a Variable tag.
The Python list comprehension
`[lambda var: self.filter(filter_name, var, ...) for filter_name, filter_data in tag.filters]`
creates closures over the comprehension's loop variables, which Python binds
late: when the lambdas are invoked (inside `self.var`, after the comprehension
has finished), every one of them reads the final `(filter_name, filter_data)`
pair.  The embedding therefore emits one lambda per declared filter, each
applying the last declared filter. -/
def lateBoundFilters (emit : String → String → Option String → String)
    (tagFilters : List (String × Option String)) : List (String → String) :=
  match tagFilters.getLast? with
  | none => []
  | some last => tagFilters.map (fun _ => fun v => emit last.1 v last.2)

/-- Models `Syntax.compile_tag` on a Variable tag, Python backend: build the filter
lambdas, then emit the variable read. -/
def PyBackend.compileVarTag (varName : String) (tagFilters : List (String × Option String))
    (default : Option String) : String :=
  PyBackend.var varName (lateBoundFilters PyBackend.filterCall tagFilters) default false

/-- Models `Syntax.compile_tag` on a Variable tag, JavaScript backend. -/
def JsBackend.compileVarTag (varName : String) (tagFilters : List (String × Option String))
    (default : Option String) : String :=
  JsBackend.var varName (lateBoundFilters JsBackend.filterCall tagFilters) default false

/-- The `SuitNone` sentinel object: a stand-in for an absent value, with an
optional payload (`SuitNone()` carries none). -/
structure SuitNone where
  value : Option String

/-- Models `SuitNone.__lt__`: `other > 0`. -/
def SuitNone.lt (_ : SuitNone) (other : Int) : Bool := decide (other > 0)

/-- Models `SuitNone.__le__`: `other >= 0`. -/
def SuitNone.le (_ : SuitNone) (other : Int) : Bool := decide (other ≥ 0)

/-- Models `SuitNone.__gt__`: `other < 0`. -/
def SuitNone.gt (_ : SuitNone) (other : Int) : Bool := decide (other < 0)

/-- Models `SuitNone.__ge__`: `other <= 0`. -/
def SuitNone.ge (_ : SuitNone) (other : Int) : Bool := decide (other ≤ 0)

/-- Models `SuitNone.__eq__`: False against every operand. -/
def SuitNone.eq (_ : SuitNone) (_ : Value) : Bool := false

/-- Models `SuitNone.__eq__` against another sentinel instance: still False. -/
def SuitNone.eqSuitNone (_ : SuitNone) (_ : SuitNone) : Bool := false

/-- Models `SuitNone.__ne__`: True against every operand. -/
def SuitNone.ne (_ : SuitNone) (_ : Value) : Bool := true

/-- Models `SuitNone.__len__`: zero. -/
def SuitNone.len (_ : SuitNone) : Nat := 0

/-- Python truthiness of a `SuitNone`: the class defines no `__bool__`, so
`bool()` falls back to `__len__`, which is zero. -/
def SuitNone.pyBool (s : SuitNone) : Bool := decide (SuitNone.len s ≠ 0)

/-- Models `SuitNone.__getitem__`: a sentinel with the same payload, for any key. -/
def SuitNone.getitem (s : SuitNone) (_ : Value) : SuitNone := ⟨s.value⟩

/-- Models `SuitNone.__str__`: the payload when present, otherwise the marker text. -/
def SuitNone.toStr (s : SuitNone) : String := s.value.getD "SuitNone()"

/-- A rendering context: the template data mapping. -/
abbrev Ctx : Type := List (String × Value)

/-- A heap of context mappings, making Python's reference/mutation semantics
explicit: a context is a cell index into the store, `deepcopy` allocates a
fresh cell, and in-place dict mutation writes through the index. -/
structure Store where
  cells : Nat → Ctx
  size : Nat

/-- Read a cell. -/
def Store.get (s : Store) (r : Nat) : Ctx := s.cells r

/-- Overwrite a cell in place. -/
def Store.set (s : Store) (r : Nat) (c : Ctx) : Store :=
  ⟨fun i => if i = r then c else s.cells i, s.size⟩

/-- Allocate a fresh cell holding `c`; the new index is the old size. -/
def Store.alloc (s : Store) (c : Ctx) : Store × Nat :=
  (⟨fun i => if i = s.size then c else s.cells i, s.size + 1⟩, s.size)

/-- Models `copy.deepcopy` on a context value (the fresh-cell allocation is what
separates the copy from the original). -/
def deepcopy (c : Ctx) : Ctx := c

/-- Python `dict[key] = value`: overwrite the existing entry or append. -/
def ctxSet (c : Ctx) (k : String) (v : Value) : Ctx :=
  if (alookup c k).isSome then c.map (fun kv => if kv.1 = k then (k, v) else kv)
  else c ++ [(k, v)]

/-- Python `dict.update`: assign every pair of `sd` into `c`, in order. -/
def ctxUpdate (c : Ctx) (sd : Ctx) : Ctx :=
  sd.foldl (fun acc kv => ctxSet acc kv.1 kv.2) c

/-- The loop of `SuitRunTime.include` over `iter_dict`: store each loop
variable under an `itervar_` key in the new context cell. -/
def iterFold (newRef : Nat) : List (String × Value) → Store → Store
  | [], s => s
  | kv :: tl, s =>
    iterFold newRef tl (s.set newRef (ctxSet (s.get newRef) ("itervar_" ++ kv.1) kv.2))

/-- Models `SuitRunTime.include`: deep-copy the caller's context into a fresh cell,
inject the loop variables, then merge the parsed scope data over the copy; a
scope-data parse failure (`ValueError`) leaves the copy unmerged.  The result
is the store after the call and the cell the included document renders
against. -/
def SuitRunTime.include (st : Store) (callerRef : Nat) (iterDict : List (String × Value))
    (scopeData : Except Unit Ctx) : Store × Nat :=
  let mainData := st.get callerRef
  let a := st.alloc (deepcopy mainData)
  let st2 := iterFold a.2 iterDict a.1
  match scopeData with
  | Except.ok sd => (st2.set a.2 (ctxUpdate (st2.get a.2) sd), a.2)
  | Except.error _ => (st2, a.2)

/-- C7: `Variable._convertVarPath` maps the dot-notation access
`user.addresses[0].city` and the bracket-notation access
`user["addresses"][0]["city"]` to the same canonical bracketed key sequence. -/
theorem c7_convertVarPath_unifies :
    Variable.convertVarPath "user.addresses[0].city" =
      "[\"user\"][\"addresses\"][0][\"city\"]" ∧
    Variable.convertVarPath "user[\"addresses\"][0][\"city\"]" =
      "[\"user\"][\"addresses\"][0][\"city\"]" :=
  ⟨rfl, rfl⟩

/-- C3 evaluation: compiling `<var filter="int,bool">x</var>` emits, for both
backends, the last filter applied twice — `bool(bool(read))` — and not the
left-to-right composition `bool(int(read))` that the claim states: the filter
closures built by `Syntax.compile_tag` late-bind the comprehension variables,
so the first filter is never applied. -/
theorem c3_filter_late_binding :
    PyBackend.compileVarTag "[\"x\"]" [("int", none), ("bool", none)] none =
      "SuitRunTime.stringify(SuitFilters._bool(SuitFilters._bool(SuitRunTime.var(lambda self: self.data[\"x\"], None, self))))" ∧
    JsBackend.compileVarTag "[\"x\"]" [("int", none), ("bool", none)] none =
      "suit.SuitRunTime.stringify(suit.SuitFilters.to_bool(suit.SuitFilters.to_bool(suit.SuitRunTime.variable(function()\x7b return data[\"x\"]; \x7d, null))))" ∧
    PyBackend.compileVarTag "[\"x\"]" [("int", none), ("bool", none)] none ≠
      "SuitRunTime.stringify(SuitFilters._bool(SuitFilters._int(SuitRunTime.var(lambda self: self.data[\"x\"], None, self))))" ∧
    JsBackend.compileVarTag "[\"x\"]" [("int", none), ("bool", none)] none ≠
      "suit.SuitRunTime.stringify(suit.SuitFilters.to_bool(suit.SuitFilters.str2int(suit.SuitRunTime.variable(function()\x7b return data[\"x\"]; \x7d, null))))" :=
  ⟨rfl, rfl, by decide, by decide⟩

/-- C1: a render-time var path resolution whose evaluation fails for any of the
caught reasons (missing key, wrong container kind, out-of-range index,
undefined name) never propagates the exception: `SuitRunTime.var` returns the
declared default when one was given, otherwise the `SuitNone` sentinel. -/
theorem c1_var_failure_returns_default (ctx : Value) (path : List Key)
    (default : Option Value) (e : VarError)
    (h : evalPath ctx path = Except.error e) :
    SuitRunTime.var (evalPath ctx path) default = default.getD Value.suitNone := by
  rw [h]
  rfl

/-- C1 witness: `<var>missing.path</var>` against `{}` misses with a
`KeyError`; without a default the sentinel comes back, with `d="0"` the
literal default comes back. -/
theorem c1_var_failure_returns_default_witness :
    SuitRunTime.var (evalPath (Value.dict []) [Key.str "missing", Key.str "path"]) none =
      Value.suitNone ∧
    SuitRunTime.var (evalPath (Value.dict []) [Key.str "missing", Key.str "path"])
      (some (Value.str "0")) = Value.str "0" :=
  ⟨c1_var_failure_returns_default (Value.dict []) [Key.str "missing", Key.str "path"]
      none VarError.keyError rfl,
    c1_var_failure_returns_default (Value.dict []) [Key.str "missing", Key.str "path"]
      (some (Value.str "0")) VarError.keyError rfl⟩

/-- C10: a successfully resolved var value that is a string is returned
HTML-escaped with quotes escaped; a successfully resolved non-string,
non-`None` value passes through unescaped. -/
theorem c10_var_escapes_strings (v : Value) (default : Option Value) :
    (∀ s, v = Value.str s → SuitRunTime.var (Except.ok v) default = Value.str (escape s)) ∧
    ((∀ s, v ≠ Value.str s) → v ≠ Value.none →
      SuitRunTime.var (Except.ok v) default = v) := by
  constructor
  · intro s hs
    subst hs
    rfl
  · intro hstr hnone
    cases v with
    | none => exact absurd rfl hnone
    | str s => exact absurd rfl (hstr s)
    | int n => rfl
    | list xs => rfl
    | dict xs => rfl
    | suitNone => rfl

/-- C10 witness: the string `<a>&"` comes back escaped, the integer 7 comes
back unchanged. -/
theorem c10_var_escapes_strings_witness :
    SuitRunTime.var (Except.ok (Value.str "<a>&\"")) none =
      Value.str "&lt;a&gt;&amp;&quot;" ∧
    SuitRunTime.var (Except.ok (Value.int 7)) none = Value.int 7 := by
  constructor
  · rw [(c10_var_escapes_strings (Value.str "<a>&\"") none).1 "<a>&\"" rfl]
    rfl
  · exact (c10_var_escapes_strings (Value.int 7) none).2
      (fun s hs => Value.noConfusion hs) (fun hn => Value.noConfusion hn)

lemma conditionFold_spec (tags : List (String × String)) : ∀ acc : ConditionParts,
    tags.foldl conditionStep acc =
      ⟨match lastBody "condition" tags with
        | some c => some c
        | none => acc.condition,
       (lastBody "true" tags).getD acc.trueBranch,
       (lastBody "false" tags).getD acc.falseBranch⟩ := by
  induction tags with
  | nil => intro acc; rfl
  | cons t tl ih =>
    intro acc
    rw [List.foldl_cons, ih]
    by_cases h1 : t.1 = "condition" <;> by_cases h2 : t.1 = "true" <;>
      by_cases h3 : t.1 = "false" <;>
      cases hc : lastBody "condition" tl <;> cases ht : lastBody "true" tl <;>
      cases hf : lastBody "false" tl <;>
      simp_all [conditionStep, lastBody]

/-- C4 counterexample: for `<if condition="x"><condition>y</condition></if>`
the parsed Condition node's condition is the nested child's body `y`, not the
explicit attribute `x` — the attribute does not win. -/
theorem c4_counterexample :
    (Condition.parse (some "x") [("condition", "y")] "<condition>y</condition>").condition =
      some "y" ∧
    (Condition.parse (some "x") [("condition", "y")] "<condition>y</condition>").condition ≠
      some "x" :=
  ⟨rfl, by decide⟩

/-- C4 amended: the nested children always bind, attribute present or not —
the condition is the last nested `<condition>` child's body when one exists and
the attribute only otherwise, the true branch is the last `<true>` child's body
defaulting to the whole body, and the false branch is the last `<false>`
child's body defaulting to empty. -/
theorem c4_condition_children_override (attr : Option String)
    (bodyTags : List (String × String)) (body : String) :
    Condition.parse attr bodyTags body =
      ⟨match lastBody "condition" bodyTags with
        | some c => some c
        | none => attr,
       (lastBody "true" bodyTags).getD body,
       (lastBody "false" bodyTags).getD ""⟩ :=
  conditionFold_spec bodyTags ⟨attr, body, ""⟩

/-- C6 counterexample: the sentinel is not strictly less in every ordering
comparison — `SuitNone() < 0` is False, and `SuitNone() > -1` is True. -/
theorem c6_counterexample :
    SuitNone.lt ⟨none⟩ 0 = false ∧ SuitNone.gt ⟨none⟩ (-1) = true :=
  ⟨rfl, rfl⟩

/-- C6 amended: the sentinel's ordering comparisons compare the other operand
against 0, so it behaves as strictly lesser only against positive values (and
as strictly greater against negative ones); it is falsy, has zero length,
equals nothing (including another sentinel instance), indexing it with any key
returns a sentinel with the same payload, and the default sentinel stringifies
to the marker `SuitNone()`. -/
theorem c6_sentinel_behavior (s : SuitNone) (x : Int) (v : Value) (t : SuitNone) :
    (0 < x → s.lt x = true ∧ s.le x = true ∧ s.gt x = false ∧ s.ge x = false) ∧
    (x ≤ 0 → s.lt x = false) ∧
    (x < 0 → s.gt x = true) ∧
    s.pyBool = false ∧
    s.len = 0 ∧
    s.eq v = false ∧
    s.eqSuitNone t = false ∧
    s.ne v = true ∧
    (s.getitem v).value = s.value ∧
    SuitNone.toStr ⟨none⟩ = "SuitNone()" := by
  refine ⟨?_, ?_, ?_, rfl, rfl, rfl, rfl, rfl, rfl, rfl⟩
  · intro hx
    refine ⟨?_, ?_, ?_, ?_⟩ <;>
      simp [SuitNone.lt, SuitNone.le, SuitNone.gt, SuitNone.ge] <;> omega
  · intro hx
    simp [SuitNone.lt]
    omega
  · intro hx
    simp [SuitNone.gt]
    omega

/-- C6 amended witness: concrete instances of the sentinel's behavior. -/
theorem c6_sentinel_behavior_witness :
    SuitNone.lt ⟨none⟩ 1 = true ∧ SuitNone.eq ⟨none⟩ (Value.int 0) = false :=
  ⟨((c6_sentinel_behavior ⟨none⟩ 1 (Value.int 0) ⟨none⟩).1 (by decide)).1,
   (c6_sentinel_behavior ⟨none⟩ 1 (Value.int 0) ⟨none⟩).2.2.2.2.2.1⟩

lemma countStep_unmatched : ∀ (ts : List Token) (st : List Nat) (m : Nat),
    (∃ k, st.length + opensCount (List.take k ts) < closesCount (List.take k ts)) →
    countStep ts st m = none := by
  intro ts
  induction ts with
  | nil =>
    intro st m h
    obtain ⟨k, hk⟩ := h
    simp [opensCount, closesCount] at hk
  | cons t rest ih =>
    intro st m h
    obtain ⟨k, hk⟩ := h
    cases k with
    | zero => simp [List.take_zero, opensCount, closesCount] at hk
    | succ j =>
      rw [List.take_succ_cons] at hk
      cases t with
      | text s =>
        have hr : countStep rest st m = none := by
          apply ih st m
          refine ⟨j, ?_⟩
          simpa [opensCount, closesCount] using hk
        simp [countStep, hr]
      | opener n i =>
        have hr : countStep rest (m :: st) (m + 1) = none := by
          apply ih (m :: st) (m + 1)
          refine ⟨j, ?_⟩
          simp only [opensCount, closesCount] at hk ⊢
          simp only [List.length_cons]
          omega
        simp [countStep, hr]
      | closer n i =>
        cases st with
        | nil => simp [countStep]
        | cons i0 st' =>
          have hr : countStep rest st' m = none := by
            apply ih st' m
            refine ⟨j, ?_⟩
            simp only [opensCount, closesCount] at hk ⊢
            simp only [List.length_cons] at hk
            omega
          simp [countStep, hr]

/-- C8: an input containing a closer of the recognized vocabulary with no
matching open opener on the stack (some prefix holds more closers than
openers) makes `TagCounter.count` fail with `TemplateParseError` instead of
returning a result. -/
theorem c8_unmatched_closer_fails (ts : List Token)
    (h : ∃ k, opensCount (List.take k ts) < closesCount (List.take k ts)) :
    TagCounter.count ts = none := by
  obtain ⟨k, hk⟩ := h
  have hn : countStep ts [] 0 = none := by
    apply countStep_unmatched ts [] 0
    exact ⟨k, by simpa using hk⟩
  simp [TagCounter.count, hn]

/-- C8 witness: a lone closing `</if>` has no matching opener and `count`
fails. -/
theorem c8_unmatched_closer_fails_witness :
    TagCounter.count [Token.closer "if" none] = none :=
  c8_unmatched_closer_fails _ ⟨1, by decide⟩

lemma countStep_append (a : List Token) : ∀ (b : List Token) (st : List Nat) (m : Nat)
    (out1 : List Token) (st1 : List Nat) (m1 : Nat),
    countStep a st m = some (out1, st1, m1) →
    countStep (a ++ b) st m =
      (countStep b st1 m1).map (fun r => (out1 ++ r.1, r.2.1, r.2.2)) := by
  induction a with
  | nil =>
    intro b st m out1 st1 m1 h
    simp only [countStep, Option.some.injEq, Prod.mk.injEq] at h
    obtain ⟨h1, h2, h3⟩ := h
    subst h1; subst h2; subst h3
    simp only [List.nil_append]
    cases countStep b st m <;> simp
  | cons t a' ih =>
    intro b st m out1 st1 m1 h
    cases t with
    | text s =>
      simp only [countStep, Option.map_eq_some'] at h
      obtain ⟨⟨o, s2, m2⟩, hr, heq⟩ := h
      simp only [Prod.mk.injEq] at heq
      obtain ⟨h1, h2, h3⟩ := heq
      subst h1; subst h2; subst h3
      simp only [List.cons_append, countStep, List.append_eq]
      rw [ih b st m o s2 m2 hr]
      cases countStep b s2 m2 <;> simp
    | opener n i =>
      simp only [countStep, Option.map_eq_some'] at h
      obtain ⟨⟨o, s2, m2⟩, hr, heq⟩ := h
      simp only [Prod.mk.injEq] at heq
      obtain ⟨h1, h2, h3⟩ := heq
      subst h1; subst h2; subst h3
      simp only [List.cons_append, countStep, List.append_eq]
      rw [ih b (m :: st) (m + 1) o s2 m2 hr]
      cases countStep b s2 m2 <;> simp
    | closer n i =>
      cases st with
      | nil => simp [countStep] at h
      | cons i0 st' =>
        simp only [countStep, Option.map_eq_some'] at h
        obtain ⟨⟨o, s2, m2⟩, hr, heq⟩ := h
        simp only [Prod.mk.injEq] at heq
        obtain ⟨h1, h2, h3⟩ := heq
        subst h1; subst h2; subst h3
        simp only [List.cons_append, countStep, List.append_eq]
        rw [ih b st' m o s2 m2 hr]
        cases countStep b s2 m2 <;> simp

lemma countStep_wellNested {ts : List Token} (h : WellNested ts) :
    ∀ (st : List Nat) (m : Nat),
    ∃ out m2, countStep ts st m = some (out, st, m2) ∧ TagCounter.decount out = ts := by
  induction h with
  | nil => intro st m; exact ⟨[], m, rfl, rfl⟩
  | text s hrest ih =>
    intro st m
    obtain ⟨out, m2, h1, h2⟩ := ih st m
    refine ⟨Token.text s :: out, m2, ?_, ?_⟩
    · simp [countStep, h1]
    · simp only [TagCounter.decount, List.map_cons, decountToken] at h2 ⊢
      rw [h2]
  | @tag n inner rest hn hinner hrest ihInner ihRest =>
    intro st m
    obtain ⟨out1, m1, hi1, hd1⟩ := ihInner (m :: st) (m + 1)
    obtain ⟨out2, m2, hi2, hd2⟩ := ihRest st m1
    refine ⟨Token.opener n (some m) :: out1 ++ Token.closer n (some m) :: out2, m2, ?_, ?_⟩
    · have happ := countStep_append inner (Token.closer n none :: rest) (m :: st) (m + 1)
        out1 (m :: st) m1 hi1
      simp only [countStep, List.append_eq]
      rw [happ]
      simp only [countStep]
      rw [hi2]
      simp
    · simp only [TagCounter.decount, List.map_cons, List.map_append, decountToken] at hd1 hd2 ⊢
      rw [hd1, hd2]

/-- C2: for every well-nested tag text over the recognized vocabulary,
`TagCounter.count` succeeds and `TagCounter.decount` of the enumerated result
gives back the original text. -/
theorem c2_count_decount_roundtrip (ts : List Token) (h : WellNested ts) :
    ∃ out, TagCounter.count ts = some out ∧ TagCounter.decount out = ts := by
  obtain ⟨out, m2, h1, h2⟩ := countStep_wellNested h [] 0
  exact ⟨out, by simp [TagCounter.count, h1], h2⟩

/-- C2 witness: nested same-named tags `a<if><if></if></if>` survive the
count/decount round trip. -/
theorem c2_count_decount_roundtrip_witness :
    ∃ out,
      TagCounter.count [Token.text "a", Token.opener "if" none, Token.opener "if" none,
        Token.closer "if" none, Token.closer "if" none] = some out ∧
      TagCounter.decount out = [Token.text "a", Token.opener "if" none, Token.opener "if" none,
        Token.closer "if" none, Token.closer "if" none] :=
  c2_count_decount_roundtrip _
    (WellNested.text "a"
      (WellNested.tag "if" (by decide)
        (WellNested.tag "if" (by decide) WellNested.nil WellNested.nil)
        WellNested.nil))

lemma mem_getBreakPoints {segs : List Seg} {n : String} {s : Seg}
    (h : (n, s) ∈ getBreakPoints segs) : s ∈ segs ∧ ∃ b, s = Seg.bp n b := by
  induction segs with
  | nil => simp [getBreakPoints] at h
  | cons hd tl ih =>
    cases hd with
    | txt t =>
      simp only [getBreakPoints] at h
      have := ih h
      exact ⟨List.mem_cons_of_mem _ this.1, this.2⟩
    | bp nm b =>
      simp only [getBreakPoints, List.mem_cons, Prod.mk.injEq] at h
      rcases h with ⟨hn, hs⟩ | h
      · subst hn
        subst hs
        exact ⟨List.mem_cons_self _ _, ⟨b, rfl⟩⟩
      · have := ih h
        exact ⟨List.mem_cons_of_mem _ this.1, this.2⟩

lemma alookup_mem {α : Type} : ∀ {l : List (String × α)} {key : String} {v : α},
    alookup l key = some v → (key, v) ∈ l := by
  intro l
  induction l with
  | nil => intro key v h; simp [alookup] at h
  | cons hd tl ih =>
    intro key v h
    obtain ⟨k0, v0⟩ := hd
    simp only [alookup] at h
    by_cases hk : k0 = key
    · subst hk
      rw [if_pos rfl] at h
      injection h with h
      subst h
      exact List.mem_cons_self _ _
    · rw [if_neg hk] at h
      exact List.mem_cons_of_mem _ (ih h)

lemma mem_replaceAll_of_ne {x p c : Seg} {segs : List Seg} (hx : x ∈ segs) (hne : x ≠ p) :
    x ∈ replaceAll p c segs :=
  List.mem_map.2 ⟨x, hx, by rw [if_neg hne]⟩

lemma mem_replaceAll_self {p c : Seg} {segs : List Seg} (hp : p ∈ segs) :
    c ∈ replaceAll p c segs :=
  List.mem_map.2 ⟨p, hp, by rw [if_pos rfl]⟩

lemma not_mem_replaceAll {p c : Seg} {segs : List Seg} (hne : p ≠ c) :
    p ∉ replaceAll p c segs := by
  intro hmem
  obtain ⟨s, _, heq⟩ := List.mem_map.1 hmem
  by_cases h : s = p
  · rw [if_pos h] at heq
    exact hne heq.symm
  · rw [if_neg h] at heq
    exact h heq

lemma not_mem_replaceAll_of {x p c : Seg} {segs : List Seg}
    (hx : x ∉ segs) (hc : c ≠ x) : x ∉ replaceAll p c segs := by
  intro hmem
  obtain ⟨s, hs, heq⟩ := List.mem_map.1 hmem
  by_cases h : s = p
  · rw [if_pos h] at heq
    exact hc heq
  · rw [if_neg h] at heq
    subst heq
    exact hx hs

lemma rebaseFold_pres (childBPs : List (String × Seg)) (cseg pseg : Seg) :
    ∀ (L : List (String × Seg)) (acc : List Seg),
    cseg ∈ acc → pseg ∉ acc →
    (∀ q ∈ L, q.2 ≠ cseg) →
    (∀ k c, alookup childBPs k = some c → c ≠ pseg) →
    cseg ∈ rebaseFold childBPs acc L ∧ pseg ∉ rebaseFold childBPs acc L := by
  intro L
  induction L with
  | nil => intro acc hc hp _ _; exact ⟨hc, hp⟩
  | cons q rest ih =>
    intro acc hc hp hL h4
    simp only [rebaseFold]
    cases hql : alookup childBPs q.1 with
    | none => exact ih acc hc hp (fun x hx => hL x (List.mem_cons_of_mem _ hx)) h4
    | some cq =>
      apply ih
      · exact mem_replaceAll_of_ne hc (fun he => (hL q (List.mem_cons_self _ _)) he.symm)
      · exact not_mem_replaceAll_of hp (h4 q.1 cq hql)
      · exact fun x hx => hL x (List.mem_cons_of_mem _ hx)
      · exact h4

lemma rebaseFold_main (childBPs : List (String × Seg)) (n : String) (pseg cseg : Seg) :
    ∀ (L : List (String × Seg)) (acc : List Seg),
    (n, pseg) ∈ L →
    pseg ∈ acc →
    alookup childBPs n = some cseg →
    (∀ q ∈ L, q.1 ≠ n → q.2 ≠ pseg) →
    (∀ q ∈ L, q.2 ≠ cseg) →
    (∀ k c, alookup childBPs k = some c → c ≠ pseg) →
    pseg ≠ cseg →
    cseg ∈ rebaseFold childBPs acc L ∧ pseg ∉ rebaseFold childBPs acc L := by
  intro L
  induction L with
  | nil => intro acc hmem; simp at hmem
  | cons q rest ih =>
    intro acc hmem hp hlook hname hcs h4 hne
    simp only [rebaseFold]
    by_cases hq : q = (n, pseg)
    · subst hq
      rw [hlook]
      apply rebaseFold_pres
      · exact mem_replaceAll_self hp
      · exact not_mem_replaceAll hne
      · exact fun x hx => hcs x (List.mem_cons_of_mem _ hx)
      · exact h4
    · have hmem' : (n, pseg) ∈ rest := by
        rcases List.mem_cons.1 hmem with h | h
        · exact absurd h.symm hq
        · exact h
      cases hql : alookup childBPs q.1 with
      | none =>
        exact ih acc hmem' hp hlook
          (fun x hx => hname x (List.mem_cons_of_mem _ hx))
          (fun x hx => hcs x (List.mem_cons_of_mem _ hx)) h4 hne
      | some cq =>
        apply ih _ hmem' _ hlook
          (fun x hx => hname x (List.mem_cons_of_mem _ hx))
          (fun x hx => hcs x (List.mem_cons_of_mem _ hx)) h4 hne
        apply mem_replaceAll_of_ne hp
        by_cases hq1 : q.1 = n
        · intro he
          exact hq (Prod.ext_iff.2 ⟨hq1, he.symm⟩)
        · exact fun he => (hname q (List.mem_cons_self _ _) hq1) he.symm

/-- C5: when a parent template declares a named breakpoint and a rebasing
child declares a breakpoint of the same name, `Template.rebase` replaces the
parent's whole breakpoint element with the child's element, so the composed
output contains the child's element and no longer the parent's (under the
non-degeneracy hypotheses that the child's elements differ from the parent's
replaced element and vice versa). -/
theorem c5_rebase_overrides (parent child : List Seg) (n : String) (pseg cseg : Seg)
    (h1 : (n, pseg) ∈ getBreakPoints parent)
    (h2 : alookup (getBreakPoints child) n = some cseg)
    (h3 : ∀ q ∈ getBreakPoints child, q.2 ≠ pseg)
    (h5 : ∀ q ∈ getBreakPoints parent, q.2 ≠ cseg) :
    cseg ∈ Template.rebase parent child ∧ pseg ∉ Template.rebase parent child := by
  obtain ⟨hpmem, b, hpeq⟩ := mem_getBreakPoints h1
  have hne : pseg ≠ cseg := h5 (n, pseg) h1
  have hname : ∀ q ∈ getBreakPoints parent, q.1 ≠ n → q.2 ≠ pseg := by
    intro q hq hqn he
    obtain ⟨q1, q2⟩ := q
    obtain ⟨_, b2, hq2⟩ := mem_getBreakPoints hq
    rw [hq2] at he
    rw [hpeq] at he
    injection he with he1 he2
    exact hqn he1
  have h4 : ∀ k c, alookup (getBreakPoints child) k = some c → c ≠ pseg :=
    fun k c hkc => h3 (k, c) (alookup_mem hkc)
  exact rebaseFold_main (getBreakPoints child) n pseg cseg (getBreakPoints parent) parent
    h1 hpmem h2 hname h5 h4 hne

/-- C5 witness: parent `<breakpoint name="content">P</breakpoint>` overridden
by the rebasing child's `<breakpoint name="content">C</breakpoint>`: the
composition contains the child's element and not the parent's. -/
theorem c5_rebase_overrides_witness :
    Seg.bp "content" "C" ∈ Template.rebase
      [Seg.txt "<html>", Seg.bp "content" "P", Seg.txt "</html>"]
      [Seg.bp "content" "C"] ∧
    Seg.bp "content" "P" ∉ Template.rebase
      [Seg.txt "<html>", Seg.bp "content" "P", Seg.txt "</html>"]
      [Seg.bp "content" "C"] :=
  c5_rebase_overrides _ _ "content" (Seg.bp "content" "P") (Seg.bp "content" "C")
    (by decide) (by decide) (by decide) (by decide)


lemma alookup_overwrite (c : Ctx) (k : String) (v : Value) :
    alookup (c.map (fun kv => if kv.1 = k then (k, v) else kv)) k =
      (alookup c k).map (fun _ => v) := by
  induction c with
  | nil => rfl
  | cons kv tl ih =>
    obtain ⟨k0, v0⟩ := kv
    simp only [List.map_cons]
    by_cases h : k0 = k
    · have hh : (if (k0, v0).1 = k then (k, v) else (k0, v0)) = (k, v) := if_pos h
      rw [hh]
      subst h
      simp only [alookup, if_pos rfl]
      rfl
    · have hh : (if (k0, v0).1 = k then (k, v) else (k0, v0)) = (k0, v0) := if_neg h
      rw [hh]
      simp only [alookup, if_neg h]
      exact ih

lemma alookup_append_right (c : Ctx) (k : String) (v : Value) (h : alookup c k = none) :
    alookup (c ++ [(k, v)]) k = some v := by
  induction c with
  | nil =>
    show alookup [(k, v)] k = some v
    simp [alookup]
  | cons kv tl ih =>
    obtain ⟨k0, v0⟩ := kv
    simp only [alookup] at h
    by_cases hk : k0 = k
    · rw [if_pos hk] at h
      exact absurd h (by simp)
    · rw [if_neg hk] at h
      simp only [List.cons_append, alookup, if_neg hk, List.append_eq]
      exact ih h

lemma alookup_ctxSet_self (c : Ctx) (k : String) (v : Value) :
    alookup (ctxSet c k v) k = some v := by
  unfold ctxSet
  by_cases hc : (alookup c k).isSome
  · rw [if_pos hc]
    obtain ⟨w, hw⟩ := Option.isSome_iff_exists.1 hc
    rw [alookup_overwrite, hw]
    rfl
  · rw [if_neg hc]
    exact alookup_append_right c k v (Option.not_isSome_iff_eq_none.1 hc)

lemma alookup_overwrite_ne (c : Ctx) (k k2 : String) (v : Value) (h : k2 ≠ k) :
    alookup (c.map (fun kv => if kv.1 = k then (k, v) else kv)) k2 = alookup c k2 := by
  induction c with
  | nil => rfl
  | cons kv tl ih =>
    obtain ⟨k0, v0⟩ := kv
    simp only [List.map_cons]
    by_cases hk : k0 = k
    · have hh : (if (k0, v0).1 = k then (k, v) else (k0, v0)) = (k, v) := if_pos hk
      rw [hh]
      simp only [alookup]
      rw [if_neg (fun he => h he.symm), if_neg (fun he => h (he.symm.trans hk))]
      exact ih
    · have hh : (if (k0, v0).1 = k then (k, v) else (k0, v0)) = (k0, v0) := if_neg hk
      rw [hh]
      simp only [alookup]
      by_cases hk2 : k0 = k2
      · simp only [if_pos hk2]
      · simp only [if_neg hk2]
        exact ih

lemma alookup_append_ne (c : Ctx) (k k2 : String) (v : Value) (h : k2 ≠ k) :
    alookup (c ++ [(k, v)]) k2 = alookup c k2 := by
  induction c with
  | nil =>
    show alookup [(k, v)] k2 = none
    simp only [alookup]
    rw [if_neg (fun he => h he.symm)]
  | cons kv tl ih =>
    obtain ⟨k0, v0⟩ := kv
    simp only [List.cons_append, alookup, List.append_eq]
    by_cases hk2 : k0 = k2
    · simp only [if_pos hk2]
    · simp only [if_neg hk2]
      exact ih

lemma alookup_ctxSet_ne (c : Ctx) (k k2 : String) (v : Value) (h : k2 ≠ k) :
    alookup (ctxSet c k v) k2 = alookup c k2 := by
  unfold ctxSet
  by_cases hc : (alookup c k).isSome
  · rw [if_pos hc]
    exact alookup_overwrite_ne c k k2 v h
  · rw [if_neg hc]
    exact alookup_append_ne c k k2 v h

lemma alookup_ctxUpdate_not_mem (sd : Ctx) (k : String) :
    ∀ c : Ctx, k ∉ sd.map Prod.fst → alookup (ctxUpdate c sd) k = alookup c k := by
  induction sd with
  | nil => intro c _; rfl
  | cons kv tl ih =>
    intro c hk
    obtain ⟨k0, v0⟩ := kv
    simp only [List.map_cons, List.mem_cons] at hk
    push_neg at hk
    obtain ⟨hk0, hktl⟩ := hk
    show alookup (ctxUpdate (ctxSet c k0 v0) tl) k = alookup c k
    rw [ih (ctxSet c k0 v0) hktl]
    exact alookup_ctxSet_ne c k0 k v0 hk0

lemma alookup_ctxUpdate (sd : Ctx) (k : String) (v : Value) :
    ∀ c : Ctx, (sd.map Prod.fst).Nodup → alookup sd k = some v →
    alookup (ctxUpdate c sd) k = some v := by
  induction sd with
  | nil => intro c _ h; simp [alookup] at h
  | cons kv tl ih =>
    intro c hnd h
    obtain ⟨k0, v0⟩ := kv
    simp only [List.map_cons, List.nodup_cons] at hnd
    obtain ⟨hk0, hndtl⟩ := hnd
    simp only [alookup] at h
    by_cases hk : k0 = k
    · subst hk
      rw [if_pos rfl] at h
      injection h with h
      show alookup (ctxUpdate (ctxSet c k0 v0) tl) k0 = some v
      rw [alookup_ctxUpdate_not_mem tl k0 (ctxSet c k0 v0) hk0]
      rw [alookup_ctxSet_self c k0 v0, h]
    · rw [if_neg hk] at h
      exact ih (ctxSet c k0 v0) hndtl h

lemma store_get_set_self (s : Store) (r : Nat) (c : Ctx) : (s.set r c).get r = c := by
  simp [Store.get, Store.set]

lemma store_get_set_ne (s : Store) (r r2 : Nat) (c : Ctx) (h : r2 ≠ r) :
    (s.set r c).get r2 = s.get r2 := by
  simp [Store.get, Store.set, h]

lemma iterFold_get_ne (newRef r : Nat) (h : r ≠ newRef) :
    ∀ (l : List (String × Value)) (s : Store), (iterFold newRef l s).get r = s.get r := by
  intro l
  induction l with
  | nil => intro s; rfl
  | cons kv tl ih =>
    intro s
    show (iterFold newRef tl
      (s.set newRef (ctxSet (s.get newRef) ("itervar_" ++ kv.1) kv.2))).get r = s.get r
    rw [ih]
    exact store_get_set_ne _ _ _ _ h

/-- C9: a render-time include call merges the extra scope fragment over a deep
copy of the caller's context in a fresh cell: each extra key resolves inside
the included document's context, and the caller's own context mapping is
unchanged after the call. -/
theorem c9_include_copies_context (st : Store) (r : Nat) (iterDict : List (String × Value))
    (sd : Ctx) (hr : r < st.size) (hnd : (sd.map Prod.fst).Nodup) :
    ((SuitRunTime.include st r iterDict (Except.ok sd)).1.get r = st.get r) ∧
    (∀ k v, alookup sd k = some v →
      alookup ((SuitRunTime.include st r iterDict (Except.ok sd)).1.get
        (SuitRunTime.include st r iterDict (Except.ok sd)).2) k = some v) := by
  have hrsz : r ≠ st.size := Nat.ne_of_lt hr
  simp only [SuitRunTime.include, Store.alloc, deepcopy]
  constructor
  · rw [store_get_set_ne _ _ _ _ hrsz]
    rw [iterFold_get_ne _ _ hrsz]
    simp [Store.get, hrsz]
  · intro k v hkv
    rw [store_get_set_self]
    exact alookup_ctxUpdate sd k v _ hnd hkv

/-- C9 witness: including with extra scope `{"x": 1}` from a caller context
`{"y": 2}` leaves the caller's cell unchanged and makes `x` resolvable in the
included document's cell. -/
theorem c9_include_copies_context_witness :
    ((SuitRunTime.include ⟨fun _ => [("y", Value.int 2)], 1⟩ 0 []
        (Except.ok [("x", Value.int 1)])).1.get 0 =
      (⟨fun _ => [("y", Value.int 2)], 1⟩ : Store).get 0) ∧
    alookup ((SuitRunTime.include ⟨fun _ => [("y", Value.int 2)], 1⟩ 0 []
        (Except.ok [("x", Value.int 1)])).1.get
      (SuitRunTime.include ⟨fun _ => [("y", Value.int 2)], 1⟩ 0 []
        (Except.ok [("x", Value.int 1)])).2) "x" = some (Value.int 1) :=
  ⟨(c9_include_copies_context ⟨fun _ => [("y", Value.int 2)], 1⟩ 0 []
      [("x", Value.int 1)] (by decide) (by simp)).1,
   (c9_include_copies_context ⟨fun _ => [("y", Value.int 2)], 1⟩ 0 []
      [("x", Value.int 1)] (by decide) (by simp)).2 "x" (Value.int 1) rfl⟩
